import Mathlib

/-!
Verification of the vinum aggregation engine against its specification.

The definitions below are shallow embeddings of the C++ sources:
  * `vinum_cpp/src/common/huge_int.{h,cpp}` (the 128-bit integer `hugeint_t`),
  * the aggregate function objects in `agg_funcs.h` (COUNT, COUNT(*), MIN/MAX,
    SUM, SUM-with-overflow, AVG, GROUP_BUILDER),
  * the driver's schema binding in `base_aggregate.cpp`,
  * the column iterators in `array_iterators.h`,
  * the key types and hashers of the hash-aggregate specializations.

Machine integers are modelled as `Nat`/`Int` with explicit reductions
modulo `2 ^ 64` where the C++ relies on unsigned wrap-around.
-/

namespace Vinum

/-- 2 ^ 64, the modulus of `uint64_t` arithmetic. -/
def U64 : Nat := 18446744073709551616

/-- `std::numeric_limits<int64_t>::max()`, that is `2 ^ 63 - 1`. -/
def i64Max : Int := 9223372036854775807

/-- `std::numeric_limits<int64_t>::min()`, that is `-2 ^ 63`. -/
def i64Min : Int := -9223372036854775808

/-- The struct `hugeint_t { uint64_t lower; int64_t upper; }` from
`huge_int.h`.  `lower` carries the unsigned 64-bit word, `upper` the
signed 64-bit word of a two's-complement 128-bit value. -/
structure Hugeint where
  lower : Nat
  upper : Int
deriving DecidableEq, Repr

/-- Well-formedness of a `Hugeint`: the fields are in the ranges of
`uint64_t` and `int64_t`. -/
def Hugeint.Valid (h : Hugeint) : Prop :=
  h.lower < U64 ∧ i64Min ≤ h.upper ∧ h.upper ≤ i64Max

instance (h : Hugeint) : Decidable h.Valid := by
  unfold Hugeint.Valid; infer_instance

/-- The mathematical integer denoted by a `hugeint_t` under two's-complement
reading: `upper * 2^64 + lower`. -/
def Hugeint.toZ (h : Hugeint) : Int := h.upper * (U64 : Int) + (h.lower : Int)

/-- Reinterpret a `uint64_t`-style bit pattern reduced mod `2^w` as a signed
`w`-bit integer.  Models the C++ integral conversion to a signed type of
width `w` (modular, as implemented by the compilers the code targets). -/
def toSigned (w : Nat) (x : Nat) : Int :=
  if x % 2 ^ w < 2 ^ (w - 1) then ((x % 2 ^ w : Nat) : Int)
  else ((x % 2 ^ w : Nat) : Int) - 2 ^ w

/-- `hugeint_convert_integer<DST>` from `huge_int.cpp` for the signed input
types (`int8_t` … `int64_t`): `lower = (uint64_t)input`,
`upper = (input < 0) * -1`. -/
def hugeintConvertInteger (v : Int) : Hugeint :=
  { lower := (v % (U64 : Int)).toNat
    upper := if v < 0 then -1 else 0 }

/-- `hugeint_convert_integer<uint64_t>`: `lower = input`, `upper = 0`. -/
def hugeintConvertUInt64 (v : Nat) : Hugeint :=
  { lower := v % U64, upper := 0 }

/-- `hugeint_try_cast_integer<DST>` from `huge_int.cpp`, instantiated at a
signed destination type of width `w` (the code instantiates
`int8_t/int16_t/int32_t/int64_t`).  `case 0`: succeed when
`lower <= max<DST>`; `case -1`: succeed when
`lower > u64max - (uint64_t)max<DST>`, returning
`-DST(u64max - lower + 1)` (the inner expression is `uint64_t`
arithmetic, then converted to the destination type); otherwise fail. -/
def hugeintTryCastInteger (w : Nat) (h : Hugeint) : Option Int :=
  if h.upper = 0 then
    if h.lower ≤ 2 ^ (w - 1) - 1 then some (toSigned w h.lower) else none
  else if h.upper = -1 then
    if (U64 - 1) - (2 ^ (w - 1) - 1) < h.lower then
      some (-toSigned w ((U64 - 1 - h.lower + 1) % U64))
    else none
  else none

/-- `hugeint_try_cast_integer<uint64_t>` (the instantiation behind
`Hugeint::TryCast<uint64_t>`): the same template with
`max<DST> = u64max`; the negation `-DST(...)` is `uint64_t` arithmetic
and therefore wraps modulo `2^64`. -/
def hugeintTryCastUInt64 (h : Hugeint) : Option Nat :=
  if h.upper = 0 then
    if h.lower ≤ U64 - 1 then some (h.lower % U64) else none
  else if h.upper = -1 then
    if (U64 - 1) - (U64 - 1) < h.lower then
      some ((U64 - (U64 - 1 - h.lower + 1) % U64) % U64)
    else none
  else none

/-- `Hugeint::TryCast<double>` returns `true` unconditionally (only the
success flag is modelled; the floating-point payload is outside this
embedding). -/
def hugeintTryCastFloat64Flag (_h : Hugeint) : Bool := true

/-- `Hugeint::TryCast<float>` calls the `double` overload and returns
`true` unconditionally. -/
def hugeintTryCastFloat32Flag (h : Hugeint) : Bool := hugeintTryCastFloat64Flag h

/-- `Hugeint::AddInPlace` from `huge_int.cpp`.  `none` models returning
`false` (the overflow flag).  The carry out of the low words is
`lhs.lower + rhs.lower < lhs.lower` computed in `uint64_t`; the range
guards compare `upper` words exactly as in the source (those `int64_t`
subtractions cannot themselves overflow); after the in-place update the
result is rejected when it equals the sentinel
`{upper = i64::MIN, lower = 0}`. -/
def Hugeint.addInPlace (a b : Hugeint) : Option Hugeint :=
  let lowSum : Nat := (a.lower + b.lower) % U64
  let ovf : Int := if lowSum < a.lower then 1 else 0
  let res : Hugeint := { lower := lowSum, upper := a.upper + ovf + b.upper }
  let checked : Option Hugeint :=
    if res.upper = i64Min ∧ res.lower = 0 then none else some res
  if 0 ≤ b.upper then
    if i64Max - b.upper - ovf < a.upper then none else checked
  else
    if a.upper < i64Min - b.upper - ovf then none else checked

/-- Specification predicate for claim C5: the overflow flag of
`AddInPlace` fails exactly when the exact sum leaves the signed 128-bit
range or hits the sentinel `-2^127`, and a successful result encodes the
exact sum as a valid two's-complement `{lower, upper}` pair. -/
def AddOverflowSpec (a b : Hugeint) : Prop :=
  (Hugeint.addInPlace a b = none ↔
    ((a.toZ + b.toZ < -(2 ^ 127) ∨ 2 ^ 127 - 1 < a.toZ + b.toZ) ∨
      a.toZ + b.toZ = -(2 ^ 127)))
  ∧ ∀ r, Hugeint.addInPlace a b = some r → r.toZ = a.toZ + b.toZ ∧ r.Valid

/-- Specification predicate used for the amended claim C3 (signed
destinations): the cast succeeds exactly on `(min<DST>, max<DST>]` —
note the open lower end: `min<DST>` itself is rejected — and returns the
exact value. -/
def TryCastSignedSpec (w : Nat) (h : Hugeint) : Prop :=
  hugeintTryCastInteger w h =
    if -((2 ^ (w - 1) : Nat) : Int) < h.toZ ∧ h.toZ ≤ ((2 ^ (w - 1) : Nat) : Int) - 1 then
      some h.toZ
    else none

/-- Specification predicate used for the amended claim C3 (`uint64_t`
destination): the cast succeeds exactly on `(-2^64, 2^64)` and stores the
value reduced modulo `2^64`; in particular negative values in `(-2^64, 0)`
are reported as successful with a wrapped result. -/
def TryCastUInt64Spec (h : Hugeint) : Prop :=
  hugeintTryCastUInt64 h =
    if -(U64 : Int) < h.toZ ∧ h.toZ < (U64 : Int) then
      some (h.toZ % (U64 : Int)).toNat
    else none

/-- Builder state of `SumOverflowFunc` (`agg_funcs.h`): the
`is_overflow_mode` flag, the integer builder's appended cells and the
`Decimal128Builder`'s appended cells, in append order; `none` is a null
cell. -/
structure SumOvState where
  isOverflowMode : Bool
  intBuilder : List (Option Int)
  decBuilder : List (Option Int)
deriving DecidableEq, Repr

/-- Reading `(*builder)[i]` back from an Arrow numeric builder: a null
cell was zero-filled by `UnsafeAppendNull` (it appends `value_type{}`),
so it reads back as `0`. -/
def builderSlotValue : Option Int → Int
  | some v => v
  | none => 0

/-- `SumOverflowFunc::CopyBuilder`: for each index `i` of the current
integer builder, the code consults `array_iter->IsNull(i)` — the null bit
of the current batch's input column at row `i`, not the builder's own
validity — and appends either `Decimal128((*builder)[i])` or a null. -/
def copyBuilder (arrIsNull : Nat → Bool) (b : List (Option Int)) : List (Option Int) :=
  (List.range b.length).map fun i =>
    if arrIsNull i then none else some (builderSlotValue (b.getD i none))

/-- `SumOverflowFunc::HugeintToDecimal`: `Decimal128{upper, lower}`
denotes the same two's-complement 128-bit value. -/
def hugeintToDecimal (h : Hugeint) : Int := h.toZ

/-- One `SumOverflowFunc::Summarize` call: in overflow mode append the
decimal (or null); otherwise try to cast the consolidated `Wide128` back
to the output integer type, and on the first failure switch permanently
to overflow mode, rebuild the decimal builder via `CopyBuilder`, and
append the overflowing group as a decimal. -/
def sumOvSummarize (tryCastOut : Hugeint → Option Int) (arrIsNull : Nat → Bool)
    (s : SumOvState) (cv : Option Hugeint) : SumOvState :=
  match cv with
  | some h =>
    if s.isOverflowMode then
      { s with decBuilder := s.decBuilder ++ [some (hugeintToDecimal h)] }
    else
      match tryCastOut h with
      | some v => { s with intBuilder := s.intBuilder ++ [some v] }
      | none =>
        { isOverflowMode := true
          intBuilder := s.intBuilder
          decBuilder := copyBuilder arrIsNull s.intBuilder ++ [some (hugeintToDecimal h)] }
  | none =>
    if s.isOverflowMode then { s with decBuilder := s.decBuilder ++ [none] }
    else { s with intBuilder := s.intBuilder ++ [none] }

/-- State of an `ArrayIter` (`array_iterators.h`) bound to one column:
the cursor, the array length, the validity bitmap (`none` models a null
`null_bitmap_data()` pointer, in which case `IsNull()` is always false),
and the values buffer as a total function — a read at an index `≥ len`
models the out-of-bounds pointer read the C++ would perform there. -/
structure ArrayIterS where
  cursor : Nat
  len : Nat
  validity : Option (Nat → Bool)
  vals : Nat → Int

/-- `ArrayIter::IsNull()` at the cursor:
`(nulls_ptr != nullptr) && !GetBit(nulls_ptr, nulls_idx)`. -/
def ArrayIterS.isNullCur (it : ArrayIterS) : Bool :=
  match it.validity with
  | none => false
  | some valid => !valid it.cursor

/-- `MoveNext()`: advance the cursor (and the parallel pointers). -/
def ArrayIterS.moveNext (it : ArrayIterS) : ArrayIterS :=
  { it with cursor := it.cursor + 1 }

/-- `ArrayIter::NextNull()`: report the null bit and always advance. -/
def ArrayIterS.nextNull (it : ArrayIterS) : Bool × ArrayIterS :=
  (it.isNullCur, it.moveNext)

/-- `ArrayIter::NextIfNull()`: report the null bit; advance only when it
is set. -/
def ArrayIterS.nextIfNull (it : ArrayIterS) : Bool × ArrayIterS :=
  if it.isNullCur then (true, it.moveNext) else (false, it)

/-- `NumericArrayIter::Next()`: read the value at the cursor and advance. -/
def ArrayIterS.next (it : ArrayIterS) : Int × ArrayIterS :=
  (it.vals it.cursor, it.moveNext)

/-- `HasMore()`: cursor strictly below the length. -/
def ArrayIterS.hasMore (it : ArrayIterS) : Bool := it.cursor < it.len

/-- `CountStarFunc::Init`: returns the state `1` and never touches its
iterator. -/
def countStarInitF (it : ArrayIterS) : Nat × ArrayIterS := (1, it)

/-- `CountStarFunc::Update`: increments the state and never touches its
iterator. -/
def countStarUpdateF (c : Nat) (it : ArrayIterS) : Nat × ArrayIterS := (c + 1, it)

/-- `CountStarFunc::InitBatch`: the state `0`. -/
def countStarInitBatchF : Nat := 0

/-- `CountStarFunc::UpdateBatch`: adds `iter.Length()`. -/
def countStarUpdateBatchF (c : Nat) (it : ArrayIterS) : Nat := c + it.len

/-- `CountFunc::Init`: 0 for a null first row, 1 otherwise, via
`NextNull()`. -/
def countInitF (it : ArrayIterS) : Nat × ArrayIterS :=
  let p := it.nextNull
  (if p.1 then 0 else 1, p.2)

/-- `CountFunc::Update`: add 1 unless the row is null, via `NextNull()`. -/
def countUpdateF (c : Nat) (it : ArrayIterS) : Nat × ArrayIterS :=
  let p := it.nextNull
  (c + (if p.1 then 0 else 1), p.2)

/-- `MinMaxFunc::Init`: null state for a null row (`NextIfNull()`), else
the row's value (`Next()`). -/
def minMaxInitF (it : ArrayIterS) : Option Int × ArrayIterS :=
  let p := it.nextIfNull
  if p.1 then (none, p.2)
  else
    let q := p.2.next
    (some q.1, q.2)

/-- `MinMaxFunc::Update`: skip a null row; adopt the value on a null
state; otherwise replace the best value iff `(row_val < last) ^ is_max`. -/
def minMaxUpdateF (isMax : Bool) (st : Option Int) (it : ArrayIterS) :
    Option Int × ArrayIterS :=
  let p := it.nextIfNull
  if p.1 then (st, p.2)
  else
    match st with
    | none =>
      let q := p.2.next
      (some q.1, q.2)
    | some last =>
      let q := p.2.next
      (if Bool.xor (decide (q.1 < last)) isMax then some q.1 else some last, q.2)

/-- `MinMaxFunc::InitBatch` is `Init(0)`. -/
def minMaxInitBatchF (it : ArrayIterS) : Option Int × ArrayIterS := minMaxInitF it

/-- The loop body count of `MinMaxFunc::UpdateBatch`
(`while (HasMore()) Update(group)`), written with explicit fuel; every
`Update` advances the cursor by one, so `len` steps of fuel always
suffice. -/
def minMaxUpdateBatchAux (isMax : Bool) :
    Nat → Option Int × ArrayIterS → Option Int × ArrayIterS
  | 0, p => p
  | fuel + 1, p =>
    if p.2.hasMore then minMaxUpdateBatchAux isMax fuel (minMaxUpdateF isMax p.1 p.2)
    else p

/-- `MinMaxFunc::UpdateBatch`. -/
def minMaxUpdateBatchF (isMax : Bool) (p : Option Int × ArrayIterS) :
    Option Int × ArrayIterS :=
  minMaxUpdateBatchAux isMax p.2.len p

/-- `OneGroupAggregate::Next` on its first batch, restricted to one
MIN/MAX function: the entry is created from `InitBatch()` and then
`UpdateBatch` runs on it. -/
def oneGroupFirstBatchMinMax (isMax : Bool) (it : ArrayIterS) :
    Option Int × ArrayIterS :=
  minMaxUpdateBatchF isMax (minMaxInitBatchF it)

/-- A zero-row column as Arrow hands it to the iterator: length 0 and no
validity bitmap (`null_bitmap_data()` is null when no null was ever
appended); `junk` is whatever memory sits past the empty data buffer. -/
def emptyColumnIter (junk : Nat → Int) : ArrayIterS :=
  { cursor := 0, len := 0, validity := none, vals := junk }

/-- `SumFunc::Init` with the accumulator injection of the instantiation
(`T_OUT` cast for `SumFunc`, `Hugeint::Convert` for `SumOverflowFunc`). -/
def sumAccInitF {A : Type} (injV : Int → A) (it : ArrayIterS) :
    Option A × ArrayIterS :=
  let p := it.nextIfNull
  if p.1 then (none, p.2)
  else
    let q := p.2.next
    (some (injV q.1), q.2)

/-- `SumFunc::Update` / `SumOverflowFunc::Update` with the accumulator
injection and addition of the instantiation. -/
def sumAccUpdateF {A : Type} (injV : Int → A) (addV : A → Int → A)
    (st : Option A) (it : ArrayIterS) : Option A × ArrayIterS :=
  let p := it.nextIfNull
  if p.1 then (st, p.2)
  else
    match st with
    | none =>
      let q := p.2.next
      (some (injV q.1), q.2)
    | some s =>
      let q := p.2.next
      (some (addV s q.1), q.2)

/-- `AvgFunc::Init`: a `(accumulator, count)` pair starting at count 1. -/
def avgInitF {A : Type} (injV : Int → A) (it : ArrayIterS) :
    Option (A × Nat) × ArrayIterS :=
  let p := it.nextIfNull
  if p.1 then (none, p.2)
  else
    let q := p.2.next
    (some (injV q.1, 1), q.2)

/-- `AvgFunc::Update`: skip a null row; start a pair on a null state;
otherwise add to the accumulator and bump the count. -/
def avgUpdateF {A : Type} (injV : Int → A) (addV : A → Int → A)
    (st : Option (A × Nat)) (it : ArrayIterS) : Option (A × Nat) × ArrayIterS :=
  let p := it.nextIfNull
  if p.1 then (st, p.2)
  else
    match st with
    | none =>
      let q := p.2.next
      (some (injV q.1, 1), q.2)
    | some pr =>
      let q := p.2.next
      (some (addV pr.1 q.1, pr.2 + 1), q.2)

/-- `IntKeyValue` from `multi_numerical_hash_aggregate.h`: the `uint64_t`
key material produced by `NextAsUInt64()` and the null flag read at the
cursor before advancing. -/
structure IntKeyValue where
  value : Nat
  is_null : Bool
deriving DecidableEq, Repr

/-- `IntKeyValue::operator==`:
`is_null == second.is_null && (is_null || value == second.value)` — the
`value` field is ignored when both components are null. -/
def intKeyValueEq (a b : IntKeyValue) : Bool :=
  (a.is_null == b.is_null) && (a.is_null || (a.value == b.value))

/-- `std::vector<IntKeyValue>::operator==`: equal lengths and
element-wise `IntKeyValue::operator==`. -/
def keyVecEq : List IntKeyValue → List IntKeyValue → Bool
  | [], [] => true
  | a :: xs, b :: ys => intKeyValueEq a b && keyVecEq xs ys
  | _, _ => false

/-- The combiner `seed ^= h + 0x9e3779b9 + (seed << 6) + (seed >> 2)` of
both vector hashers, in `size_t` (64-bit) arithmetic. -/
def hashStep (seed h : Nat) : Nat :=
  Nat.xor seed ((h + 0x9e3779b9 + seed * 64 + seed / 4) % U64)

/-- `IntVectorHasher::operator()` with `std::hash<uint64_t>` abstracted
as `intHash`: the seed starts at `vec.size()`, and a null component
contributes hash material `0` regardless of its `value`. -/
def intVectorHash (intHash : Nat → Nat) (vec : List IntKeyValue) : Nat :=
  vec.foldl
    (fun seed kv => hashStep seed (if kv.is_null then 0 else intHash kv.value % U64))
    (vec.length % U64)

/-- The robin-hood groups table of `MultiNumericalHashAggregate`,
abstracted as the entry list probed with the key equality (hash
consistency is proved separately). -/
def findEntryMulti : List (List IntKeyValue × Nat) → List IntKeyValue → Option Nat
  | [], _ => none
  | e :: rest, k => if keyVecEq e.1 k then some e.2 else findEntryMulti rest k

/-- Two key components agree up to null junk: same null flag, and equal
values when non-null. -/
def NullAwareAgree (a b : IntKeyValue) : Prop :=
  a.is_null = b.is_null ∧ (a.is_null = false → a.value = b.value)

/-- Where `SingleNumericalHashAggregate::GetOrCreateEntry` sends a row:
the out-of-band null-group slot when the cursor's null bit was set
(whatever `NextAsUInt64()` returned), else the map entry of the `u64`
key. -/
inductive SingleEntryRef
  | nullSlot
  | mapEntry (key : Nat)
deriving DecidableEq, Repr

/-- `SingleNumericalHashAggregate::GetOrCreateEntry` destination: a null
row goes to the null slot before the key is even considered. -/
def singleEntryRef (is_null : Bool) (key : Nat) : SingleEntryRef :=
  if is_null then SingleEntryRef.nullSlot else SingleEntryRef.mapEntry key

/-- An Arrow scalar of the generic path: `none` when `is_valid` is false.
`arrow::Scalar::Equals` holds between two invalid scalars of the key
column's type. -/
def scalarEq {V : Type} [DecidableEq V] (a b : Option V) : Bool :=
  match a, b with
  | none, none => true
  | none, some _ => false
  | some _, none => false
  | some x, some y => x == y

/-- `ScalarsVectorEqualsFn`: element-wise `Scalar::Equals` (the C++ walks
the first vector; keys stored in one table all have the same length). -/
def scalarsVecEq {V : Type} [DecidableEq V] (xs ys : List (Option V)) : Bool :=
  (List.zip xs ys).all fun p => scalarEq p.1 p.2

/-- `ScalarsVectorHasher::operator()` with `arrow::Scalar::Hash`
abstracted as `sHash`: an invalid scalar contributes hash material `0`. -/
def scalarsVecHash {V : Type} (sHash : V → Nat) (vec : List (Option V)) : Nat :=
  vec.foldl
    (fun seed s =>
      hashStep seed
        (match s with
          | some v => sHash v % U64
          | none => 0))
    (vec.length % U64)

/-- The groups table of `GenericHashAggregate`, probed with
`ScalarsVectorEqualsFn`. -/
def findEntryGeneric {V : Type} [DecidableEq V] :
    List (List (Option V) × Nat) → List (Option V) → Option Nat
  | [], _ => none
  | e :: rest, k => if scalarsVecEq e.1 k then some e.2 else findEntryGeneric rest k

/-- An aggregate function spec as the driver's name resolution sees it:
only the (possibly empty) input column name matters here; the kind only
selects the builder, and a wrong kind/type pairing raises
`UnsupportedType`, a different error than `SchemaMismatch`. -/
structure AggFuncSpec where
  column_name : String
deriving DecidableEq, Repr

/-- `Schema::GetFieldIndex` over the schema's field names (`-1`, i.e.
`none`, when absent). -/
def getFieldIndex (schema : List String) (name : String) : Option Nat :=
  schema.indexOf? name

/-- `lookup_col_indices` (`base_aggregate.cpp`): resolve each name in
order and throw `Column not found: <name>` at the first missing one. -/
def lookupColIndices (names : List String) (schema : List String) :
    Except String (List Nat) :=
  names.mapM fun n =>
    match getFieldIndex schema n with
    | some i => Except.ok i
    | none => Except.error ("Column not found: " ++ n)

/-- The schema-error behaviour of `BaseAggregate::EnsureInitAggFuncs`:
`lookup_col_indices` runs on the group-by names and on the
key-projection names only.  The factory then runs for each synthesized
GROUP_BUILDER and each user spec, but `agg_func_factory` performs no
existence check on a non-empty `column_name` — `GetFieldByName`
returning null merely selects the `uint64()` default type — so the user
specs contribute no schema error. -/
def ensureInitAggFuncsSchemaCheck (schema groupbyCols aggCols : List String)
    (_specs : List AggFuncSpec) : Except String Unit := do
  _ ← lookupColIndices groupbyCols schema
  _ ← lookupColIndices aggCols schema
  pure ()

/-- `BaseAggregate::SetBatchArrays` calls
`batch->schema()->GetFieldByName(column_name)->type()` for every function
spec with a non-empty input column name, without a null check; this
predicate is whether all those lookups do resolve — when it is false the
C++ dereferences a null pointer. -/
def setBatchArraysResolves (schema : List String) (specs : List AggFuncSpec) : Bool :=
  specs.all fun s => s.column_name == "" || schema.contains s.column_name

/-- Claim C5: `AddInPlace` fails its flag exactly on overflow past the
signed 128-bit bounds or on the sentinel `-2^127`; otherwise it stores the
exact two's-complement sum. -/
theorem addInPlace_overflow_iff (a b : Hugeint) (ha : a.Valid) (hb : b.Valid) :
    AddOverflowSpec a b := by
  obtain ⟨la, ua⟩ := a
  obtain ⟨lb, ub⟩ := b
  obtain ⟨ha1, ha2, ha3⟩ := ha
  obtain ⟨hb1, hb2, hb3⟩ := hb
  simp only [U64, i64Min, i64Max] at ha1 ha2 ha3 hb1 hb2 hb3
  constructor
  · simp only [Hugeint.addInPlace, Hugeint.toZ, U64, i64Min, i64Max]
    norm_num
    split_ifs with h1 h2 h3 h4 h5 h6 <;> simp <;> omega
  · intro r hr
    simp only [Hugeint.addInPlace, U64, i64Min, i64Max] at hr
    split_ifs at hr with h1 h2 h3 h4 h5 h6 <;>
      simp only [Option.some.injEq, reduceCtorEq] at hr <;>
      subst hr <;>
      simp only [Hugeint.toZ, Hugeint.Valid, U64, i64Min, i64Max] <;>
      norm_num <;>
      omega

/-- Witness for claim C5 at a concrete input. -/
theorem addInPlace_overflow_iff_witness :
    Hugeint.Valid ⟨5, 0⟩ ∧ Hugeint.Valid ⟨7, 0⟩ ∧ AddOverflowSpec ⟨5, 0⟩ ⟨7, 0⟩ :=
  ⟨by decide, by decide, addInPlace_overflow_iff ⟨5, 0⟩ ⟨7, 0⟩ (by decide) (by decide)⟩

theorem pow_pred_double (w : Nat) (hw : 1 ≤ w) : (2 : Nat) ^ w = 2 * 2 ^ (w - 1) := by
  have e1 : w - 1 + 1 = w := by omega
  conv_lhs => rw [← e1]
  rw [pow_succ]
  ring

theorem toSigned_of_lt (w : Nat) (x : Nat) (hw : 1 ≤ w) (hx : x < 2 ^ (w - 1)) :
    toSigned w x = (x : Int) := by
  have hpow := pow_pred_double w hw
  unfold toSigned
  have hm : x % 2 ^ w = x := Nat.mod_eq_of_lt (by rw [hpow]; omega)
  rw [hm, if_pos hx]

theorem tryCastInteger_char (w : Nat) (h : Hugeint) (hw1 : 1 ≤ w) (hw2 : w ≤ 64)
    (hv : h.Valid) : TryCastSignedSpec w h := by
  obtain ⟨lo, up⟩ := h
  obtain ⟨h1, h2, h3⟩ := hv
  simp only [U64, i64Min, i64Max] at h1 h2 h3
  have hM : (2 : Nat) ^ (w - 1) ≤ 2 ^ 63 := Nat.pow_le_pow_right (by norm_num) (by omega)
  have h63 : (2 : Nat) ^ 63 = 9223372036854775808 := by norm_num
  rw [h63] at hM
  have hM1 : 1 ≤ (2 : Nat) ^ (w - 1) := Nat.one_le_two_pow
  unfold TryCastSignedSpec hugeintTryCastInteger Hugeint.toZ
  simp only [U64]
  by_cases hu0 : up = 0
  · subst hu0
    rw [if_pos rfl]
    by_cases hlo : lo ≤ 2 ^ (w - 1) - 1
    · rw [if_pos hlo, toSigned_of_lt w lo hw1 (by omega),
        if_pos (⟨by omega, by omega⟩ : _ ∧ _)]
      simp only [Option.some.injEq]
      omega
    · rw [if_neg hlo, if_neg (by omega)]
  · rw [if_neg hu0]
    by_cases hu1 : up = -1
    · subst hu1
      rw [if_pos rfl]
      by_cases hlo : (18446744073709551616 - 1) - (2 ^ (w - 1) - 1) < lo
      · have hlo0 : 0 < lo := by omega
        have hx : (18446744073709551616 - 1 - lo + 1) % 18446744073709551616
            = 18446744073709551616 - lo := by omega
        rw [if_pos hlo, hx, toSigned_of_lt w (18446744073709551616 - lo) hw1 (by omega),
          if_pos (⟨by omega, by omega⟩ : _ ∧ _)]
        simp only [Option.some.injEq]
        omega
      · rw [if_neg hlo, if_neg (by omega)]
    · rw [if_neg hu1, if_neg (by omega)]

theorem tryCastUInt64_char (h : Hugeint) (hv : h.Valid) : TryCastUInt64Spec h := by
  obtain ⟨lo, up⟩ := h
  obtain ⟨h1, h2, h3⟩ := hv
  simp only [U64, i64Min, i64Max] at h1 h2 h3
  unfold TryCastUInt64Spec hugeintTryCastUInt64 Hugeint.toZ
  simp only [U64]
  split_ifs <;> first
    | rfl
    | (simp only [Option.some.injEq]; omega)
    | (exfalso; omega)

theorem convertInteger_in_range (v : Int) (h1 : i64Min ≤ v) (h2 : v ≤ i64Max) :
    (hugeintConvertInteger v).Valid ∧ (hugeintConvertInteger v).toZ = v := by
  unfold hugeintConvertInteger Hugeint.Valid Hugeint.toZ
  simp only [U64, i64Min, i64Max] at *
  split_ifs <;> simp <;> omega

/-- Claim C3, counterexample: the claim asserts that `try_cast<u64>` fails
for every negative value and that `try_cast<T>` succeeds exactly on the
representable range.  In the code, `try_cast<u64>` of the value `-1`
(`upper = -1`, `lower = 2^64 - 1`) succeeds and stores the wrapped value
`2^64 - 1`, and `try_cast<i64>` of `i64::MIN` fails even though `i64::MIN`
is representable. -/
theorem try_cast_claim_counterexample :
    (Hugeint.toZ (hugeintConvertInteger (-1)) = -1
      ∧ hugeintTryCastUInt64 (hugeintConvertInteger (-1)) = some (U64 - 1))
  ∧ (Hugeint.toZ (hugeintConvertInteger i64Min) = i64Min
      ∧ hugeintTryCastInteger 64 (hugeintConvertInteger i64Min) = none) := by
  decide

/-- Claim C3, amended: for the signed destinations of width `w ≤ 64` the
cast succeeds exactly on `(min<T>, max<T>]` (the minimum itself is
rejected) and stores the exact value; for `u64` it succeeds exactly on
`(-2^64, 2^64)` and stores the value modulo `2^64` (so negative values in
that range succeed with a wrapped result); the `f32`/`f64` casts always
report success. -/
theorem try_cast_integer_amended :
    (∀ w h, 1 ≤ w → w ≤ 64 → Hugeint.Valid h → TryCastSignedSpec w h)
  ∧ (∀ h, Hugeint.Valid h → TryCastUInt64Spec h)
  ∧ ∀ h, hugeintTryCastFloat32Flag h = true ∧ hugeintTryCastFloat64Flag h = true :=
  ⟨fun w h hw1 hw2 hv => tryCastInteger_char w h hw1 hw2 hv,
   fun h hv => tryCastUInt64_char h hv,
   fun _ => ⟨rfl, rfl⟩⟩

/-- Witness for the amended claim C3 at concrete inputs. -/
theorem try_cast_integer_amended_witness :
    (1 ≤ 64 ∧ 64 ≤ 64 ∧ Hugeint.Valid ⟨9, 0⟩ ∧ TryCastSignedSpec 64 ⟨9, 0⟩)
  ∧ TryCastUInt64Spec ⟨9, 0⟩ :=
  ⟨⟨by decide, by decide, by decide,
    try_cast_integer_amended.1 64 ⟨9, 0⟩ (by decide) (by decide) (by decide)⟩,
   try_cast_integer_amended.2.1 ⟨9, 0⟩ (by decide)⟩

/-- Claim C4, counterexample: the round-trip
`try_cast<i64>(from_int(x)) = Some(x)` fails at `x = i64::MIN`: the code
returns failure there (`lower = 2^63` does not satisfy the strict
`lower > 2^63` guard). -/
theorem int64_roundtrip_counterexample :
    hugeintTryCastInteger 64 (hugeintConvertInteger i64Min) ≠ some i64Min := by
  decide

/-- Claim C4, amended: the round-trip through `Convert<int64_t>` and
`TryCast<int64_t>` returns exactly `x` for every `x : i64` except
`i64::MIN`, which fails the cast. -/
theorem int64_roundtrip_amended (v : Int) (hlt : i64Min < v) (hle : v ≤ i64Max) :
    hugeintTryCastInteger 64 (hugeintConvertInteger v) = some v := by
  obtain ⟨hvalid, htoZ⟩ := convertInteger_in_range v (le_of_lt hlt) hle
  have hc := tryCastInteger_char 64 (hugeintConvertInteger v) (by norm_num) (by norm_num) hvalid
  unfold TryCastSignedSpec at hc
  have hcond : -(((2 : Nat) ^ (64 - 1) : Nat) : Int) < (hugeintConvertInteger v).toZ
      ∧ (hugeintConvertInteger v).toZ ≤ (((2 : Nat) ^ (64 - 1) : Nat) : Int) - 1 := by
    rw [htoZ]
    simp only [i64Min, i64Max] at hlt hle
    norm_num
    omega
  rw [hc, if_pos hcond, htoZ]

/-- Witness for the amended claim C4 at a concrete input. -/
theorem int64_roundtrip_amended_witness :
    i64Min < -9223372036854775807 ∧ (-9223372036854775807 : Int) ≤ i64Max
  ∧ hugeintTryCastInteger 64 (hugeintConvertInteger (-9223372036854775807))
      = some (-9223372036854775807) :=
  ⟨by decide, by decide,
   int64_roundtrip_amended (-9223372036854775807) (by decide) (by decide)⟩

/-- Claim C1 (code bug): with SUM over `i64`, summarize a group whose
state is null (only null inputs), then a group whose consolidated sum is
`2^63` (for instance rows `9223372036854775807` and `1`), while row `0`
of the current batch's input column is non-null (its null row is row
`1`).  The transition to overflow mode happens, but `CopyBuilder` keys
null preservation on the input column's validity at the builder index:
the null group's builder cell is copied as the non-null decimal `0`
instead of staying null, contradicting the claim. -/
theorem sum_overflow_copy_drops_null_group :
    (sumOvSummarize (hugeintTryCastInteger 64) (fun i => i == 1)
        ⟨false, [], []⟩ none).intBuilder = [none]
  ∧ (sumOvSummarize (hugeintTryCastInteger 64) (fun i => i == 1)
        (sumOvSummarize (hugeintTryCastInteger 64) (fun i => i == 1)
          ⟨false, [], []⟩ none)
        (some ⟨9223372036854775808, 0⟩)).isOverflowMode = true
  ∧ (sumOvSummarize (hugeintTryCastInteger 64) (fun i => i == 1)
        (sumOvSummarize (hugeintTryCastInteger 64) (fun i => i == 1)
          ⟨false, [], []⟩ none)
        (some ⟨9223372036854775808, 0⟩)).decBuilder
      = [some 0, some 9223372036854775808] := by
  decide

theorem cursor_iterate {A : Type} (f : A × ArrayIterS → A × ArrayIterS)
    (hstep : ∀ p, (f p).2.cursor = p.2.cursor + 1) (k : Nat) (p : A × ArrayIterS) :
    (f^[k] p).2.cursor = p.2.cursor + k := by
  induction k generalizing p with
  | zero => simp
  | succ n ih =>
    rw [Function.iterate_succ_apply, ih (f p), hstep p]
    omega

theorem minMaxInitF_cursor (it : ArrayIterS) :
    (minMaxInitF it).2.cursor = it.cursor + 1 := by
  unfold minMaxInitF ArrayIterS.nextIfNull ArrayIterS.next ArrayIterS.moveNext
  by_cases h : it.isNullCur <;> simp [h]

theorem minMaxUpdateF_cursor (m : Bool) (st : Option Int) (it : ArrayIterS) :
    (minMaxUpdateF m st it).2.cursor = it.cursor + 1 := by
  unfold minMaxUpdateF ArrayIterS.nextIfNull ArrayIterS.next ArrayIterS.moveNext
  by_cases h : it.isNullCur <;> cases st <;> simp [h]

theorem sumAccInitF_cursor {A : Type} (injV : Int → A) (it : ArrayIterS) :
    (sumAccInitF injV it).2.cursor = it.cursor + 1 := by
  unfold sumAccInitF ArrayIterS.nextIfNull ArrayIterS.next ArrayIterS.moveNext
  by_cases h : it.isNullCur <;> simp [h]

theorem sumAccUpdateF_cursor {A : Type} (injV : Int → A) (addV : A → Int → A)
    (st : Option A) (it : ArrayIterS) :
    (sumAccUpdateF injV addV st it).2.cursor = it.cursor + 1 := by
  unfold sumAccUpdateF ArrayIterS.nextIfNull ArrayIterS.next ArrayIterS.moveNext
  by_cases h : it.isNullCur <;> cases st <;> simp [h]

theorem avgInitF_cursor {A : Type} (injV : Int → A) (it : ArrayIterS) :
    (avgInitF injV it).2.cursor = it.cursor + 1 := by
  unfold avgInitF ArrayIterS.nextIfNull ArrayIterS.next ArrayIterS.moveNext
  by_cases h : it.isNullCur <;> simp [h]

theorem avgUpdateF_cursor {A : Type} (injV : Int → A) (addV : A → Int → A)
    (st : Option (A × Nat)) (it : ArrayIterS) :
    (avgUpdateF injV addV st it).2.cursor = it.cursor + 1 := by
  unfold avgUpdateF ArrayIterS.nextIfNull ArrayIterS.next ArrayIterS.moveNext
  by_cases h : it.isNullCur <;> cases st <;> simp [h]

/-- Claim C10, counterexample: `CountStarFunc::Init` — a non-GROUP_BUILDER
aggregate function — does not advance its iterator: after the driver has
processed one row, the COUNT(*) iterator's cursor is still 0, not 1. -/
theorem count_star_init_does_not_advance :
    (countStarInitF { cursor := 0, len := 5, validity := none, vals := fun _ => 0 }).2.cursor
        = 0
  ∧ ¬((countStarInitF { cursor := 0, len := 5, validity := none, vals := fun _ => 0 }).2.cursor
        = ({ cursor := 0, len := 5, validity := none, vals := fun _ => 0 } : ArrayIterS).cursor
            + 1) :=
  ⟨rfl, by decide⟩

/-- Claim C10, amended: every `Init` and every `Update` of a
non-GROUP_BUILDER, non-COUNT(*) aggregate function (COUNT, MIN/MAX, SUM —
both variants, via the accumulator parameters — and AVG) advances its
iterator by exactly one position whether or not the row is null, so after
`k` processed rows each such function's cursor is at `k` and its null
test reads the current row; COUNT(*) never touches its iterator. -/
theorem iterator_lockstep_amended :
    (∀ it, (countInitF it).2.cursor = it.cursor + 1)
  ∧ (∀ c it, (countUpdateF c it).2.cursor = it.cursor + 1)
  ∧ (∀ it, (minMaxInitF it).2.cursor = it.cursor + 1)
  ∧ (∀ m st it, (minMaxUpdateF m st it).2.cursor = it.cursor + 1)
  ∧ (∀ (A : Type) (injV : Int → A) it, (sumAccInitF injV it).2.cursor = it.cursor + 1)
  ∧ (∀ (A : Type) (injV : Int → A) addV st it,
      (sumAccUpdateF injV addV st it).2.cursor = it.cursor + 1)
  ∧ (∀ (A : Type) (injV : Int → A) it, (avgInitF injV it).2.cursor = it.cursor + 1)
  ∧ (∀ (A : Type) (injV : Int → A) addV st it,
      (avgUpdateF injV addV st it).2.cursor = it.cursor + 1)
  ∧ (∀ k p, ((fun q => countUpdateF q.1 q.2)^[k] p).2.cursor = p.2.cursor + k)
  ∧ (∀ m k p, ((fun q => minMaxUpdateF m q.1 q.2)^[k] p).2.cursor = p.2.cursor + k)
  ∧ (∀ (A : Type) (injV : Int → A) addV k (p : Option A × ArrayIterS),
      ((fun q => sumAccUpdateF injV addV q.1 q.2)^[k] p).2.cursor = p.2.cursor + k)
  ∧ (∀ (A : Type) (injV : Int → A) addV k (p : Option (A × Nat) × ArrayIterS),
      ((fun q => avgUpdateF injV addV q.1 q.2)^[k] p).2.cursor = p.2.cursor + k) :=
  ⟨fun _ => rfl,
   fun _ _ => rfl,
   minMaxInitF_cursor,
   minMaxUpdateF_cursor,
   fun _ injV it => sumAccInitF_cursor injV it,
   fun _ injV addV st it => sumAccUpdateF_cursor injV addV st it,
   fun _ injV it => avgInitF_cursor injV it,
   fun _ injV addV st it => avgUpdateF_cursor injV addV st it,
   fun k p => cursor_iterate _ (fun _ => rfl) k p,
   fun m k p => cursor_iterate _ (fun q => minMaxUpdateF_cursor m q.1 q.2) k p,
   fun _ injV addV k p => cursor_iterate _ (fun q => sumAccUpdateF_cursor injV addV q.1 q.2) k p,
   fun _ injV addV k p => cursor_iterate _ (fun q => avgUpdateF_cursor injV addV q.1 q.2) k p⟩

/-- Claim C8 (code bug): one-group aggregation over a single zero-row
batch.  `COUNT(*)` correctly yields 0, but `MIN`'s `InitBatch = Init(0)`
sees `IsNull() = false` (the empty array carries no validity bitmap), so
it calls `Next()` and reads past the empty data buffer: the group state
becomes the junk value instead of null, and `Summarize` emits it as a
non-null cell — for any junk contents, here e.g. `7`. -/
theorem one_group_empty_batch_min_not_null :
    countStarUpdateBatchF countStarInitBatchF (emptyColumnIter fun _ => 7) = 0
  ∧ (∀ junk : Nat → Int,
      (oneGroupFirstBatchMinMax false (emptyColumnIter junk)).1 = some (junk 0))
  ∧ (oneGroupFirstBatchMinMax false (emptyColumnIter fun _ => 7)).1 = some 7 :=
  ⟨rfl, fun _ => rfl, rfl⟩

theorem intKeyValueEq_of_agree (a b : IntKeyValue) (h : NullAwareAgree a b) :
    intKeyValueEq a b = true := by
  obtain ⟨h1, h2⟩ := h
  obtain ⟨va, na⟩ := a
  obtain ⟨vb, nb⟩ := b
  simp only at h1 h2
  cases na <;> simp_all [intKeyValueEq]

theorem intKeyValueEq_congr (a b x : IntKeyValue) (h : NullAwareAgree a b) :
    intKeyValueEq x a = intKeyValueEq x b := by
  obtain ⟨h1, h2⟩ := h
  obtain ⟨va, na⟩ := a
  obtain ⟨vb, nb⟩ := b
  obtain ⟨vx, nx⟩ := x
  simp only at h1 h2
  cases na <;> cases nx <;> simp_all [intKeyValueEq]

theorem keyVecEq_of_agree {k1 k2 : List IntKeyValue}
    (h : List.Forall₂ NullAwareAgree k1 k2) : keyVecEq k1 k2 = true := by
  induction h with
  | nil => rfl
  | cons ha _ ih => simp [keyVecEq, intKeyValueEq_of_agree _ _ ha, ih]

theorem keyVecEq_congr {k1 k2 : List IntKeyValue}
    (h : List.Forall₂ NullAwareAgree k1 k2) (x : List IntKeyValue) :
    keyVecEq x k1 = keyVecEq x k2 := by
  induction h generalizing x with
  | nil => cases x <;> rfl
  | cons ha _ ih =>
    cases x with
    | nil => rfl
    | cons c cs => simp [keyVecEq, intKeyValueEq_congr _ _ c ha, ih cs]

theorem foldl_hashStep_congr {A : Type} (m : A → Nat) {l1 l2 : List A}
    (h : List.Forall₂ (fun a b => m a = m b) l1 l2) (seed : Nat) :
    List.foldl (fun s x => hashStep s (m x)) seed l1
      = List.foldl (fun s x => hashStep s (m x)) seed l2 := by
  induction h generalizing seed with
  | nil => rfl
  | cons ha _ ih =>
    simp only [List.foldl_cons]
    rw [ha]
    exact ih _

theorem intVectorHash_congr (f : Nat → Nat) {k1 k2 : List IntKeyValue}
    (h : List.Forall₂ NullAwareAgree k1 k2) :
    intVectorHash f k1 = intVectorHash f k2 := by
  unfold intVectorHash
  rw [h.length_eq]
  refine foldl_hashStep_congr (fun kv => if kv.is_null then 0 else f kv.value % U64)
    (h.imp (fun a b hab => ?_)) _
  show (if a.is_null then 0 else f a.value % U64)
      = (if b.is_null then 0 else f b.value % U64)
  obtain ⟨h1, h2⟩ := hab
  cases hn : a.is_null
  · rw [hn] at h1 h2
    simp [← h1, h2 rfl]
  · rw [hn] at h1
    simp [← h1]

theorem findEntryMulti_congr {k1 k2 : List IntKeyValue}
    (h : List.Forall₂ NullAwareAgree k1 k2) (table : List (List IntKeyValue × Nat)) :
    findEntryMulti table k1 = findEntryMulti table k2 := by
  induction table with
  | nil => rfl
  | cons e rest ih => simp [findEntryMulti, keyVecEq_congr h e.1, ih]

theorem scalarEq_congr {V : Type} [DecidableEq V] (a b x : Option V)
    (h : scalarEq a b = true) : scalarEq x a = scalarEq x b := by
  cases a <;> cases b <;> cases x <;> simp_all [scalarEq]

theorem scalarsVecEq_congr {V : Type} [DecidableEq V] {k1 k2 : List (Option V)}
    (h : List.Forall₂ (fun a b => scalarEq a b = true) k1 k2) (x : List (Option V)) :
    scalarsVecEq x k1 = scalarsVecEq x k2 := by
  induction h generalizing x with
  | nil => cases x <;> rfl
  | cons ha _ ih =>
    cases x with
    | nil => rfl
    | cons c cs =>
      have hi := ih cs
      simp only [scalarsVecEq] at hi ⊢
      simp [List.zip_cons_cons, List.all_cons, scalarEq_congr _ _ c ha, hi]

theorem scalarsVecHash_congr {V : Type} (sHash : V → Nat) {k1 k2 : List (Option V)}
    [DecidableEq V]
    (h : List.Forall₂ (fun a b => scalarEq a b = true) k1 k2) :
    scalarsVecHash sHash k1 = scalarsVecHash sHash k2 := by
  unfold scalarsVecHash
  rw [h.length_eq]
  refine foldl_hashStep_congr
    (fun s => match s with | some v => sHash v % U64 | none => 0)
    (h.imp (fun a b hab => ?_)) _
  cases a with
  | none =>
    cases b with
    | none => rfl
    | some y => exact absurd hab (by simp [scalarEq])
  | some x =>
    cases b with
    | none => exact absurd hab (by simp [scalarEq])
    | some y =>
      have hxy : x = y := by simpa [scalarEq] using hab
      subst hxy
      rfl

theorem findEntryGeneric_congr {V : Type} [DecidableEq V] {k1 k2 : List (Option V)}
    (h : List.Forall₂ (fun a b => scalarEq a b = true) k1 k2)
    (table : List (List (Option V) × Nat)) :
    findEntryGeneric table k1 = findEntryGeneric table k2 := by
  induction table with
  | nil => rfl
  | cons e rest ih => simp [findEntryGeneric, scalarsVecEq_congr h e.1, ih]

/-- Claim C6: in each hash-aggregate specialization, rows whose keys have
nulls in the same positions and equal values elsewhere land in the same
group entry regardless of the numeric key material at null positions —
multi-numeric keys compare equal, hash equally (null components feed `0`
into the combiner), and probe the table identically; a null single-numeric
key goes to the out-of-band null slot whatever its key material; and in
the generic path two invalid scalars are equal (`NULL` groups with `NULL`)
and `Scalar::Equals`-agreeing keys probe the table identically. -/
theorem null_keys_group_together :
    (∀ k1 k2 : List IntKeyValue, List.Forall₂ NullAwareAgree k1 k2 →
      keyVecEq k1 k2 = true
      ∧ (∀ f, intVectorHash f k1 = intVectorHash f k2)
      ∧ ∀ table, findEntryMulti table k1 = findEntryMulti table k2)
  ∧ (∀ j1 j2 : Nat, singleEntryRef true j1 = singleEntryRef true j2)
  ∧ (∀ (V : Type) (iV : DecidableEq V), @scalarEq V iV none none = true)
  ∧ (∀ (V : Type) (iV : DecidableEq V) (k1 k2 : List (Option V)),
      List.Forall₂ (fun a b => @scalarEq V iV a b = true) k1 k2 →
      (∀ sHash : V → Nat, scalarsVecHash sHash k1 = scalarsVecHash sHash k2)
      ∧ ∀ table, @findEntryGeneric V iV table k1 = @findEntryGeneric V iV table k2) :=
  ⟨fun _ _ h =>
    ⟨keyVecEq_of_agree h, fun f => intVectorHash_congr f h,
     fun table => findEntryMulti_congr h table⟩,
   fun _ _ => rfl,
   fun _ _ => rfl,
   fun _ _ _ _ h =>
    ⟨fun sHash => scalarsVecHash_congr sHash h,
     fun table => findEntryGeneric_congr h table⟩⟩

/-- Witness for claim C6: two all-null single-component keys with
different junk key material land in the same multi-numeric entry. -/
theorem null_keys_group_together_witness :
    List.Forall₂ NullAwareAgree [(⟨123, true⟩ : IntKeyValue)] [⟨456, true⟩]
  ∧ keyVecEq [(⟨123, true⟩ : IntKeyValue)] [⟨456, true⟩] = true
  ∧ findEntryMulti [([(⟨9, false⟩ : IntKeyValue)], 0), ([⟨77, true⟩], 1)] [⟨123, true⟩]
      = findEntryMulti [([(⟨9, false⟩ : IntKeyValue)], 0), ([⟨77, true⟩], 1)] [⟨456, true⟩] := by
  have hf : List.Forall₂ NullAwareAgree [(⟨123, true⟩ : IntKeyValue)] [⟨456, true⟩] :=
    List.Forall₂.cons ⟨rfl, fun hx => Bool.noConfusion hx⟩ List.Forall₂.nil
  exact ⟨hf, (null_keys_group_together.1 _ _ hf).1,
    (null_keys_group_together.1 _ _ hf).2.2 _⟩

/-- Claim C9 (code bug): with group-by column `g`, key projection `g` and
one user aggregate reading column `x`, against a first batch whose schema
holds only `g`: the claim demands `SchemaMismatch`, but
`EnsureInitAggFuncs` succeeds — the aggregate input name is never passed
to `lookup_col_indices` and `agg_func_factory` silently defaults the
missing field to `uint64` — and `SetBatchArrays` then fails to resolve
`x`, which in the C++ is a null-pointer dereference, not a
`SchemaMismatch`.  A missing group-by or key-projection name does raise
the error, as the third conjunct shows. -/
theorem missing_agg_input_no_schema_error :
    ensureInitAggFuncsSchemaCheck ["g"] ["g"] ["g"] [⟨"x"⟩] = Except.ok ()
  ∧ setBatchArraysResolves ["g"] [⟨"g"⟩, ⟨"x"⟩] = false
  ∧ ensureInitAggFuncsSchemaCheck ["g"] ["missing"] ["g"] [⟨"x"⟩]
      = Except.error "Column not found: missing" :=
  ⟨rfl, rfl, rfl⟩

end Vinum
